import Mathlib

/-!
Verification of the Emotion_Detection repository (emotion_model.py, app.py).

The Python source is shallowly embedded below:
* `clean_text` embeds the text normalizer (emotion_model.py lines 63-70): the
  four `re.sub` passes and the final `strip`, modelled character-by-character
  over `List Char` (ASCII character classes, matching the behaviour of the
  Python regexes on the ASCII range).
* `FittedModel` embeds the fitted sklearn `Pipeline([tfidf, clf])` abstractly:
  `transform` is the fitted vectorizer (its failure, `none`, models a raised
  exception), while the classifier heads `clfPredict`/`clfProba` are total
  functions satisfying sklearn's documented contract (the prediction is one of
  `classes_`, `predict_proba` returns one probability per class, each in
  [0, 1]).
* `predict_emotion` / `predict_emotion_with_confidence` embed the two facade
  functions (lines 123-159) including their try/except fallbacks.
* `load_dataset_from_csv` / `startupFromFrame` embed the dataset provider
  (lines 29-60) and the module-level training prologue (lines 73-109); the
  stratified-split and fit validity checks performed by sklearn are modelled
  by `stratifiedSplitCheck` / `fitCheck`.
-/

/-- Whitespace as matched by the regex class \s (ASCII range): space, tab,
newline, carriage return, vertical tab, form feed. -/
def isPySpace (c : Char) : Bool :=
  c == ' ' || c == '\t' || c == '\n' || c == '\r' || c == '\x0b' || c == '\x0c'

/-- Word characters as matched by the regex class \w (ASCII range):
letters, digits and underscore. -/
def isWordChar (c : Char) : Bool :=
  c.isAlphanum || c == '_'

/-- Lowercasing pass of `clean_text`: `str(text).lower()`, modelled
per character (basic latin letters). -/
def pyLower (l : List Char) : List Char :=
  l.map Char.toLower

/-- URL-removal pass of `clean_text`: `re.sub(r'http\S+', '', text)`.
The scanner state records whether we are currently consuming the greedy
`\S+` tail of a match (everything up to the next whitespace is deleted). -/
def urlGo : Bool → List Char → List Char
  | _, [] => []
  | true, c :: cs => if isPySpace c then c :: urlGo false cs else urlGo true cs
  | false, 'h' :: 't' :: 't' :: 'p' :: c :: cs =>
      if isPySpace c then 'h' :: 't' :: 't' :: 'p' :: urlGo false (c :: cs)
      else urlGo true cs
  | false, c :: cs => c :: urlGo false cs

/-- Entry point of the URL-removal pass (scanner starts outside a match). -/
def removeUrls (l : List Char) : List Char :=
  urlGo false l

/-- Punctuation-removal pass of `clean_text`: `re.sub(r'[^\w\s]', '', text)`
deletes every character that is neither a word character nor whitespace. -/
def removePunct (l : List Char) : List Char :=
  l.filter (fun c => isWordChar c || isPySpace c)

/-- Digit-removal pass of `clean_text`: `re.sub(r'\d+', '', text)`; replacing
maximal digit runs by the empty string deletes exactly the digit characters. -/
def removeDigits (l : List Char) : List Char :=
  l.filter (fun c => !c.isDigit)

/-- Whitespace-collapsing pass of `clean_text`: `re.sub(r'\s+', ' ', text)`
replaces each maximal whitespace run by a single space.  The flag records
whether the previous character belonged to a run whose space was emitted. -/
def collapseGo : Bool → List Char → List Char
  | _, [] => []
  | inRun, c :: cs =>
      if isPySpace c then
        if inRun then collapseGo true cs else ' ' :: collapseGo true cs
      else c :: collapseGo false cs

/-- Entry point of the whitespace-collapsing pass. -/
def collapseWs (l : List Char) : List Char :=
  collapseGo false l

/-- Leading-whitespace trim (half of Python's `str.strip()`). -/
def ltrim (l : List Char) : List Char :=
  l.dropWhile isPySpace

/-- Trailing-whitespace trim (other half of Python's `str.strip()`). -/
def rtrim (l : List Char) : List Char :=
  (l.reverse.dropWhile isPySpace).reverse

/-- Python's `str.strip()`: remove leading and trailing whitespace. -/
def pyStrip (l : List Char) : List Char :=
  rtrim (ltrim l)

/-- Character-list core of `clean_text` (emotion_model.py lines 63-70):
lowercase, remove URLs, remove punctuation, remove digits, collapse
whitespace, strip. -/
def cleanChars (l : List Char) : List Char :=
  pyStrip (collapseWs (removeDigits (removePunct (removeUrls (pyLower l)))))

/-- Embedding of `clean_text` (emotion_model.py lines 63-70). -/
def clean_text (s : String) : String :=
  ⟨cleanChars s.data⟩

/-- Feature vectors produced by the fitted TfidfVectorizer.  The claims never
inspect their contents, only pass them between pipeline stages. -/
abbrev FVec := List ℚ

/-- Abstract embedding of the fitted sklearn `Pipeline([tfidf, clf])` held in
the module-level variable `model`.  `transform` is the fitted vectorizer
applied to one cleaned string; `none` models an exception raised inside the
numeric pipeline (both `model.predict` and `model.predict_proba` first run
this shared stage).  The classifier heads are total on valid vectors and
satisfy sklearn's documented contract: `predict` returns a member of
`classes_`, `predict_proba` returns one probability per class, each within
[0, 1].  `hasProba` models `hasattr(model, 'predict_proba')`. -/
structure FittedModel where
  transform : String → Option FVec
  clfPredict : FVec → String
  clfProba : FVec → List ℚ
  classes : List String
  hasProba : Bool
  predict_mem : ∀ v, clfPredict v ∈ classes
  proba_len : ∀ v, (clfProba v).length = classes.length
  proba_bounds : ∀ v, ∀ p ∈ clfProba v, 0 ≤ p ∧ p ≤ 1

/-- Embedding of Python's `round(float(x), 1)` on the rational model of the
confidence value: round to one decimal place (ties at a half resolve as in
mathlib's `round`; no claim depends on tie direction). -/
def round1 (q : ℚ) : ℚ :=
  ((round (q * 10) : ℤ) : ℚ) / 10

/-- Embedding of `predict_emotion` (emotion_model.py lines 123-131): clean the
text, predict, and on any internal exception return "neutral". -/
def predict_emotion (m : FittedModel) (text : String) : String :=
  match m.transform (clean_text text) with
  | none => "neutral"
  | some v => m.clfPredict v

/-- Embedding of `predict_emotion_with_confidence` (emotion_model.py lines
133-159).  The `if proba = []` guard models `max(proba)` raising `ValueError`
on an empty sequence (the computed maximum itself is dead code, overwritten on
line 149); the membership guard models `list(classes).index(prediction)`
raising `ValueError` when the prediction is absent; the indexed lookup models
`proba[pred_index]` raising `IndexError` out of range.  Every raised exception
lands in the handler returning ("neutral", 50.0). -/
def predict_emotion_with_confidence (m : FittedModel) (text : String) :
    String × ℚ :=
  let cleaned := clean_text text
  if m.hasProba then
    match m.transform cleaned with
    | none => ("neutral", 50)
    | some v =>
      let proba := m.clfProba v
      let prediction := m.clfPredict v
      if proba = [] then ("neutral", 50)
      else if prediction ∈ m.classes then
        match proba[m.classes.indexOf prediction]? with
        | none => ("neutral", 50)
        | some p => (prediction, round1 (p * 100))
      else ("neutral", 50)
  else
    match m.transform cleaned with
    | none => ("neutral", 50)
    | some v => (m.clfPredict v, 75)

/-- Probability mass the fitted classifier assigns to its own predicted class
for the vector `v`: the `classes_`-indexed entry of `predict_proba`. -/
def probOfPredicted (m : FittedModel) (v : FVec) : ℚ :=
  (m.clfProba v).getD (m.classes.indexOf (m.clfPredict v)) 0

/-- Closed label set used by the presentation layer (app.py colour/emoji
tables) and by the built-in default dataset. -/
def emotionLabels : List String :=
  ["happy", "sad", "angry", "fear", "neutral"]

/-- Tabular result of parsing a CSV file, as produced by `pd.read_csv`:
named columns and one cell row per sample. -/
structure DataFrame where
  cols : List String
  rows : List (List String)
deriving DecidableEq

/-- Splitter on a single separator character (used to model line and comma
splitting of the simple, quote-free CSV files this program reads/writes). -/
def splitOnChar (sep : Char) : List Char → List (List Char)
  | [] => [[]]
  | c :: cs =>
      if c == sep then [] :: splitOnChar sep cs
      else
        match splitOnChar sep cs with
        | [] => [[c]]
        | g :: gs => (c :: g) :: gs

/-- Split a string into lines. -/
def splitLines (s : String) : List String :=
  (splitOnChar '\n' s.data).map (fun l => ⟨l⟩)

/-- Split a CSV line into cells (the dataset cells contain no commas or
quotes, so plain comma splitting is exact). -/
def splitComma (s : String) : List String :=
  (splitOnChar ',' s.data).map (fun l => ⟨l⟩)

/-- Join a list of strings with a separator. -/
def joinWith (sep : String) : List String → String
  | [] => ""
  | [x] => x
  | x :: y :: xs => x ++ sep ++ joinWith sep (y :: xs)

/-- Serialization performed by `data.to_csv('emotions_dataset.csv',
index=False)`: header line, one comma-joined line per row, each line
terminated by a newline. -/
def writeCsv (df : DataFrame) : String :=
  joinWith "\n" (joinWith "," df.cols :: df.rows.map (joinWith ",")) ++ "\n"

/-- Errors that abort module import (process startup) of emotion_model.py.
No `DatasetError`/`TrainingError` classes exist in the source; what escapes
is the underlying pandas/sklearn exception: `emptyData` and `parserError`
model `pd.read_csv` failures, `keyMissing` models a pandas `KeyError` from a
column access in the training prologue, and `trainingError` models the
`ValueError`s raised by `train_test_split`'s stratification checks and by
`LogisticRegression.fit`. -/
inductive StartupError where
  | emptyData
  | parserError
  | keyMissing (col : String)
  | trainingError (msg : String)
deriving DecidableEq

/-- Model of `pd.read_csv` on the files this program deals with: first
non-blank line is the header, later non-blank lines are rows; a row with more
fields than the header raises a parser error; an empty file raises
`EmptyDataError`.  (Rows with fewer fields are padded by pandas with missing
values, modelled downstream as empty cells.) -/
def readCsv (content : String) : Except StartupError DataFrame :=
  match (splitLines content).filter (fun l => l != "") with
  | [] => .error .emptyData
  | h :: rest =>
    let cols := splitComma h
    let rows := rest.map splitComma
    if rows.all (fun r => r.length ≤ cols.length) then .ok ⟨cols, rows⟩
    else .error .parserError

/-- Built-in default dataset created by `load_dataset_from_csv` when no CSV
file exists (emotion_model.py lines 42-55). -/
def defaultData : DataFrame :=
  ⟨["text", "emotion"],
   [["I am happy", "happy"], ["I feel great", "happy"],
    ["This is wonderful", "happy"],
    ["I am sad", "sad"], ["This is terrible", "sad"], ["I feel bad", "sad"],
    ["I am angry", "angry"], ["This makes me mad", "angry"],
    ["I hate this", "angry"],
    ["I am scared", "fear"], ["This is frightening", "fear"],
    ["I feel afraid", "fear"],
    ["This is normal", "neutral"], ["Nothing special", "neutral"],
    ["Regular day", "neutral"]]⟩

/-- Embedding of `load_dataset_from_csv` (emotion_model.py lines 29-60).  The
file system is modelled by the optional content of 'emotions_dataset.csv';
the result carries the loaded frame together with the content of that file
after the call (the function writes the default data when no file exists). -/
def load_dataset_from_csv (fs : Option String) :
    Except StartupError (DataFrame × String) :=
  match fs with
  | some content => (readCsv content).map (fun df => (df, content))
  | none => .ok (defaultData, writeCsv defaultData)

/-- Column access `data[name]` on a DataFrame: pandas raises `KeyError` when
the column is absent; short rows yield missing values, modelled as "". -/
def getCol (df : DataFrame) (name : String) : Option (List String) :=
  if name ∈ df.cols then
    some (df.rows.map (fun r => r.getD (df.cols.indexOf name) ""))
  else none

/-- Number of test samples chosen by `train_test_split(..., test_size=0.2)`:
the ceiling of n * 0.2. -/
def nTestOf (n : Nat) : Nat :=
  (n + 4) / 5

/-- Number of occurrences of a label in the label column. -/
def countOccs (y : List String) (c : String) : Nat :=
  (y.filter (fun x => x == c)).length

/-- Validity checks performed by `train_test_split(X, y, test_size=0.2,
random_state=42, stratify=y)` (emotion_model.py lines 88-90), in sklearn's
order: every class needs at least 2 members, and both split sides must hold
at least one sample per class; each failure is a `ValueError` that aborts
startup. -/
def stratifiedSplitCheck (y : List String) : Except StartupError Unit :=
  let n := y.length
  let classes := y.dedup
  let nTest := nTestOf n
  let nTrain := n - nTest
  if (classes.map (countOccs y)).any (fun k => k < 2) then
    .error (.trainingError "least populated class has fewer than 2 members")
  else if nTrain < classes.length then
    .error (.trainingError "train_size smaller than the number of classes")
  else if nTest < classes.length then
    .error (.trainingError "test_size smaller than the number of classes")
  else .ok ()

/-- Validity check performed by `LogisticRegression.fit` (emotion_model.py
line 109): the solver needs samples of at least 2 classes.  Under a
successful stratified split the training fold contains every class of `y`,
so the check is stated on the full label column. -/
def fitCheck (y : List String) : Except StartupError Unit :=
  if y.dedup.length < 2 then
    .error (.trainingError "this solver needs samples of at least 2 classes")
  else .ok ()

/-- Data reaching `model.fit` when startup succeeds: the cleaned texts and
the label column. -/
structure TrainedData where
  xClean : List String
  yLabels : List String
deriving DecidableEq

/-- Embedding of the module-level training prologue (emotion_model.py lines
73-109) applied to a loaded frame: access `data['text']`, clean it, access
`data['emotion']`, run the stratified split, fit the classifier.  The first
failing step's exception aborts startup. -/
def startupFromFrame (df : DataFrame) : Except StartupError TrainedData :=
  match getCol df "text" with
  | none => .error (.keyMissing "text")
  | some texts =>
    let cleaned := texts.map clean_text
    match getCol df "emotion" with
    | none => .error (.keyMissing "emotion")
    | some emotions =>
      match stratifiedSplitCheck emotions with
      | .error e => .error e
      | .ok _ =>
        match fitCheck emotions with
        | .error e => .error e
        | .ok _ => .ok ⟨cleaned, emotions⟩

/-- Whole startup of emotion_model.py from a given file-system state: load
the dataset, then run the training prologue. -/
def startup (fs : Option String) : Except StartupError TrainedData :=
  match load_dataset_from_csv fs with
  | .error e => .error e
  | .ok (df, _) => startupFromFrame df

/-- Recognizer for startup outcomes that abort with a training-phase
`ValueError` (the spec's `TrainingError`). -/
def isTrainingErr {α : Type} : Except StartupError α → Bool
  | .error (.trainingError _) => true
  | _ => false

instance {ε α : Type} [DecidableEq ε] [DecidableEq α] :
    DecidableEq (Except ε α) := fun x y =>
  match x, y with
  | .error e, .error f => decidable_of_iff (e = f) (by simp)
  | .ok a, .ok b => decidable_of_iff (a = b) (by simp)
  | .error _, .ok _ => isFalse (by simp)
  | .ok _, .error _ => isFalse (by simp)

/-- No two adjacent whitespace characters (the shape `re.sub(r'\s+', ' ')`
leaves behind). -/
def NoWW (l : List Char) : Prop :=
  l.Chain' (fun a b => ¬(isPySpace a = true ∧ isPySpace b = true))

/-- Concrete instance of `FittedModel` used to evaluate the facade theorems
at a concrete input: one class, certain prediction. -/
def demoModel : FittedModel where
  transform := fun _ => some [1]
  clfPredict := fun _ => "happy"
  clfProba := fun _ => [1]
  classes := ["happy"]
  hasProba := true
  predict_mem := fun _ => by simp
  proba_len := fun _ => rfl
  proba_bounds := fun _ p hp => by
    simp only [List.mem_singleton] at hp
    simp [hp]

/-- Concrete model whose numeric pipeline always raises, used to evaluate
the error-fallback theorems at a concrete input. -/
def failModel : FittedModel where
  transform := fun _ => none
  clfPredict := fun _ => "happy"
  clfProba := fun _ => [1]
  classes := ["happy"]
  hasProba := true
  predict_mem := fun _ => by simp
  proba_len := fun _ => rfl
  proba_bounds := fun _ p hp => by
    simp only [List.mem_singleton] at hp
    simp [hp]

/-- Concrete model without a `predict_proba` capability, used to evaluate
the placeholder-confidence theorem at a concrete input. -/
def noProbaModel : FittedModel where
  transform := fun _ => some [1]
  clfPredict := fun _ => "happy"
  clfProba := fun _ => [1]
  classes := ["happy"]
  hasProba := false
  predict_mem := fun _ => by simp
  proba_len := fun _ => rfl
  proba_bounds := fun _ p hp => by
    simp only [List.mem_singleton] at hp
    simp [hp]

/-- Single-class two-row frame used to evaluate the training-failure theorem
at a concrete input. -/
def oneClassFrame : DataFrame :=
  ⟨["text", "emotion"], [["a", "happy"], ["b", "happy"]]⟩

/-- Two-class frame whose least populated class has a single member (too
small for the stratified split), used to evaluate the training-failure
theorem's second trigger at a concrete input. -/
def smallClassFrame : DataFrame :=
  ⟨["text", "emotion"], [["a", "happy"], ["b", "sad"], ["c", "sad"]]⟩

theorem char_toNat_ofNat_lt (n : Nat) (h : n < 55296) : (Char.ofNat n).toNat = n := by
  have hv : n.isValidChar := Or.inl h
  simp only [Char.ofNat, dif_pos hv]
  simp [Char.ofNatAux, Char.toNat, UInt32.toNat]

theorem char_toLower_toLower (c : Char) : c.toLower.toLower = c.toLower := by
  simp only [Char.toLower]
  by_cases h : c.toNat ≥ 65 ∧ c.toNat ≤ 90
  · rw [if_pos h]
    have h32 : (Char.ofNat (c.toNat + 32)).toNat = c.toNat + 32 :=
      char_toNat_ofNat_lt _ (by omega)
    rw [h32, if_neg (by omega)]
  · rw [if_neg h, if_neg h]

theorem urlGo_sublist : ∀ (b : Bool) (l : List Char), (urlGo b l).Sublist l := by
  intro b l
  induction b, l using urlGo.induct with
  | case1 b => rw [urlGo.eq_1]
  | case2 c cs hsp ih => rw [urlGo.eq_2, if_pos hsp]; exact ih.cons₂ c
  | case3 c cs hsp ih => rw [urlGo.eq_2, if_neg hsp]; exact ih.cons c
  | case4 c cs hsp ih =>
      rw [urlGo.eq_3, if_pos hsp]
      exact (((ih.cons₂ 'p').cons₂ 't').cons₂ 't').cons₂ 'h'
  | case5 c cs hsp ih =>
      rw [urlGo.eq_3, if_neg hsp]
      exact ((((ih.cons c).cons 'p').cons 't').cons 't').cons 'h'
  | case6 c cs hne ih => rw [urlGo.eq_4 c cs hne]; exact ih.cons₂ c

theorem mem_removeUrls {c : Char} {l : List Char} (h : c ∈ removeUrls l) : c ∈ l :=
  (urlGo_sublist false l).subset h

theorem head_not_space_dropWhile (l : List Char) :
    ∀ c ∈ (l.dropWhile isPySpace).head?, isPySpace c = false := by
  induction l with
  | nil => simp
  | cons a as ih =>
      rw [List.dropWhile_cons]
      by_cases h : isPySpace a = true
      · rw [if_pos h]; exact ih
      · rw [if_neg h]; simpa using Bool.eq_false_iff.mpr h

theorem head_collapseGo_true (l : List Char) :
    ∀ c ∈ (collapseGo true l).head?, isPySpace c = false := by
  induction l with
  | nil => simp [collapseGo]
  | cons a as ih =>
      by_cases h : isPySpace a = true
      · rw [show collapseGo true (a :: as) = collapseGo true as by simp [collapseGo, h]]
        exact ih
      · intro x hx
        simp only [collapseGo, h, if_false, Bool.false_eq_true, List.head?_cons,
          Option.mem_def, Option.some.injEq] at hx
        subst hx
        exact Bool.eq_false_iff.mpr h

theorem noWW_collapseGo : ∀ (b : Bool) (l : List Char), NoWW (collapseGo b l) := by
  intro b l
  induction l generalizing b with
  | nil => simp [collapseGo, NoWW]
  | cons a as ih =>
      by_cases h : isPySpace a = true
      · cases b with
        | true => simpa [collapseGo, h] using ih true
        | false =>
            simp only [collapseGo, h, if_true, if_false, Bool.false_eq_true]
            rw [NoWW, List.chain'_cons']
            refine ⟨fun y hy hcon => ?_, ih true⟩
            have := head_collapseGo_true as y hy
            rw [this] at hcon
            exact absurd hcon.2 (by simp)
      · simp only [collapseGo, h, if_false, Bool.false_eq_true]
        rw [NoWW, List.chain'_cons']
        refine ⟨fun y hy hcon => ?_, ih false⟩
        exact absurd hcon.1 h

theorem wsSpace_collapseGo :
    ∀ (b : Bool) (l : List Char), ∀ c ∈ collapseGo b l, isPySpace c = true → c = ' ' := by
  intro b l
  induction l generalizing b with
  | nil => simp [collapseGo]
  | cons a as ih =>
      intro c hc hsp
      by_cases h : isPySpace a = true
      · cases b with
        | true =>
            rw [show collapseGo true (a :: as) = collapseGo true as by
              simp [collapseGo, h]] at hc
            exact ih true c hc hsp
        | false =>
            simp only [collapseGo, h, if_true, Bool.false_eq_true, if_false,
              List.mem_cons] at hc
            rcases hc with rfl | hc
            · rfl
            · exact ih true c hc hsp
      · simp only [collapseGo, h, Bool.false_eq_true, if_false, List.mem_cons] at hc
        rcases hc with rfl | hc
        · exact absurd hsp h
        · exact ih false c hc hsp

theorem mem_collapseGo :
    ∀ (b : Bool) (l : List Char), ∀ c ∈ collapseGo b l, c = ' ' ∨ c ∈ l := by
  intro b l
  induction l generalizing b with
  | nil => simp [collapseGo]
  | cons a as ih =>
      intro c hc
      by_cases h : isPySpace a = true
      · cases b with
        | true =>
            rw [show collapseGo true (a :: as) = collapseGo true as by
              simp [collapseGo, h]] at hc
            rcases ih true c hc with h' | h'
            · exact Or.inl h'
            · exact Or.inr (List.mem_cons_of_mem a h')
        | false =>
            simp only [collapseGo, h, if_true, Bool.false_eq_true, if_false,
              List.mem_cons] at hc
            rcases hc with rfl | hc
            · exact Or.inl rfl
            · rcases ih true c hc with h' | h'
              · exact Or.inl h'
              · exact Or.inr (List.mem_cons_of_mem a h')
      · simp only [collapseGo, h, Bool.false_eq_true, if_false, List.mem_cons] at hc
        rcases hc with rfl | hc
        · exact Or.inr (List.mem_cons_self c as)
        · rcases ih false c hc with h' | h'
          · exact Or.inl h'
          · exact Or.inr (List.mem_cons_of_mem a h')

theorem collapseGo_true_eq_false (l : List Char)
    (h : ∀ c ∈ l.head?, isPySpace c = false) :
    collapseGo true l = collapseGo false l := by
  cases l with
  | nil => rfl
  | cons a as =>
      have ha : isPySpace a = false := h a (by simp)
      simp [collapseGo, ha]

theorem collapseGo_false_eq_self (l : List Char) (h1 : NoWW l)
    (h2 : ∀ c ∈ l, isPySpace c = true → c = ' ') :
    collapseGo false l = l := by
  induction l with
  | nil => rfl
  | cons a as ih =>
      rw [NoWW, List.chain'_cons'] at h1
      by_cases h : isPySpace a = true
      · have ha : a = ' ' := h2 a (by simp) h
        have hhead : ∀ c ∈ as.head?, isPySpace c = false := by
          intro c hc
          by_contra hcon
          exact h1.1 c hc ⟨h, by simpa using hcon⟩
        rw [show collapseGo false (a :: as) = ' ' :: collapseGo true as by
          simp [collapseGo, h]]
        rw [collapseGo_true_eq_false as hhead,
          ih h1.2 (fun c hc => h2 c (List.mem_cons_of_mem a hc)), ha]
      · rw [show collapseGo false (a :: as) = a :: collapseGo false as by
          simp [collapseGo, h]]
        rw [ih h1.2 (fun c hc => h2 c (List.mem_cons_of_mem a hc))]

theorem ltrim_eq_self (l : List Char)
    (h : ∀ c ∈ l.head?, isPySpace c = false) : ltrim l = l := by
  cases l with
  | nil => rfl
  | cons a as =>
      have ha : isPySpace a = false := h a (by simp)
      simp [ltrim, List.dropWhile_cons, ha]

theorem head_ltrim (l : List Char) :
    ∀ c ∈ (ltrim l).head?, isPySpace c = false :=
  head_not_space_dropWhile l

theorem ltrim_idem (l : List Char) : ltrim (ltrim l) = ltrim l :=
  ltrim_eq_self _ (head_ltrim l)

theorem rtrim_idem (l : List Char) : rtrim (rtrim l) = rtrim l := by
  unfold rtrim
  rw [List.reverse_reverse]
  rw [show (l.reverse.dropWhile isPySpace).dropWhile isPySpace
        = l.reverse.dropWhile isPySpace from ltrim_idem l.reverse]

theorem rtrim_isPre (l : List Char) : rtrim l <+: l := by
  have h : l.reverse.dropWhile isPySpace <:+ l.reverse :=
    List.dropWhile_suffix _
  have := List.reverse_prefix.mpr h
  rwa [List.reverse_reverse] at this

theorem head?_eq_of_pre {α : Type} {l₁ l₂ : List α}
    (h : l₁ <+: l₂) (hne : l₁ ≠ []) : l₁.head? = l₂.head? := by
  rcases h with ⟨t, rfl⟩
  cases l₁ with
  | nil => exact absurd rfl hne
  | cons a as => rfl

theorem pyStrip_idem (l : List Char) : pyStrip (pyStrip l) = pyStrip l := by
  unfold pyStrip
  have hX : ∀ c ∈ (ltrim l).head?, isPySpace c = false := head_ltrim l
  by_cases hne : rtrim (ltrim l) = []
  · rw [hne]; rfl
  · have hhead : ∀ c ∈ (rtrim (ltrim l)).head?, isPySpace c = false := by
      intro c hc
      rw [head?_eq_of_pre (rtrim_isPre (ltrim l)) hne] at hc
      exact hX c hc
    rw [ltrim_eq_self _ hhead, rtrim_idem]

theorem noWW_reverse {l : List Char} (h : NoWW l) : NoWW l.reverse := by
  rw [NoWW, List.chain'_reverse]
  exact h.imp (fun a b hx => fun hcon => hx ⟨hcon.2, hcon.1⟩)

theorem noWW_ltrim {l : List Char} (h : NoWW l) : NoWW (ltrim l) :=
  h.suffix (List.dropWhile_suffix _)

theorem noWW_rtrim {l : List Char} (h : NoWW l) : NoWW (rtrim l) :=
  noWW_reverse ((noWW_reverse h).suffix (List.dropWhile_suffix _))

theorem noWW_pyStrip {l : List Char} (h : NoWW l) : NoWW (pyStrip l) :=
  noWW_rtrim (noWW_ltrim h)

theorem mem_ltrim {c : Char} {l : List Char} (h : c ∈ ltrim l) : c ∈ l :=
  (List.dropWhile_suffix _).subset h

theorem mem_rtrim {c : Char} {l : List Char} (h : c ∈ rtrim l) : c ∈ l := by
  unfold rtrim at h
  rw [List.mem_reverse] at h
  have := (List.dropWhile_suffix (l := l.reverse) isPySpace).subset h
  rwa [List.mem_reverse] at this

theorem mem_pyStrip {c : Char} {l : List Char} (h : c ∈ pyStrip l) : c ∈ l :=
  mem_ltrim (mem_rtrim h)

theorem mem_cleanChars {c : Char} {l : List Char} (h : c ∈ cleanChars l) :
    c = ' ' ∨ c ∈ removeDigits (removePunct (removeUrls (pyLower l))) := by
  unfold cleanChars pyStrip at h
  exact mem_collapseGo false _ c (mem_pyStrip (by rwa [pyStrip] ))

theorem cleanChars_no_digit {c : Char} {l : List Char} (h : c ∈ cleanChars l) :
    c.isDigit = false := by
  rcases mem_cleanChars h with rfl | h'
  · decide
  · unfold removeDigits at h'
    have := (List.mem_filter.mp h').2
    simpa using this

theorem cleanChars_word_or_space {c : Char} {l : List Char}
    (h : c ∈ cleanChars l) : (isWordChar c || isPySpace c) = true := by
  rcases mem_cleanChars h with rfl | h'
  · simp [isWordChar, isPySpace]
  · unfold removeDigits at h'
    have h'' := (List.mem_filter.mp h').1
    unfold removePunct at h''
    exact (List.mem_filter.mp h'').2

theorem cleanChars_lower_fixed {c : Char} {l : List Char}
    (h : c ∈ cleanChars l) : c.toLower = c := by
  rcases mem_cleanChars h with rfl | h'
  · decide
  · unfold removeDigits at h'
    have h1 := (List.mem_filter.mp h').1
    unfold removePunct at h1
    have h2 := (List.mem_filter.mp h1).1
    have h3 : c ∈ pyLower l := mem_removeUrls h2
    unfold pyLower at h3
    rcases List.mem_map.mp h3 with ⟨b, _, rfl⟩
    exact char_toLower_toLower b

theorem cleanChars_ws_space {c : Char} {l : List Char}
    (h : c ∈ cleanChars l) (hs : isPySpace c = true) : c = ' ' := by
  unfold cleanChars pyStrip at h
  have hmem : c ∈ collapseWs (removeDigits (removePunct (removeUrls (pyLower l)))) :=
    mem_pyStrip (by rwa [pyStrip])
  exact wsSpace_collapseGo false _ c hmem hs

theorem noWW_cleanChars (l : List Char) : NoWW (cleanChars l) := by
  unfold cleanChars
  exact noWW_pyStrip (noWW_collapseGo false _)

theorem map_eq_self_of_mem {α : Type} {f : α → α} :
    ∀ {l : List α}, (∀ a ∈ l, f a = a) → l.map f = l
  | [], _ => rfl
  | a :: as, h => by
      rw [List.map_cons, h a (by simp),
        map_eq_self_of_mem (fun x hx => h x (List.mem_cons_of_mem a hx))]

theorem cleanChars_idem (l : List Char)
    (h : removeUrls (cleanChars l) = cleanChars l) :
    cleanChars (cleanChars l) = cleanChars l := by
  have h1 : pyLower (cleanChars l) = cleanChars l :=
    map_eq_self_of_mem (fun c hc => cleanChars_lower_fixed hc)
  have h2 : removePunct (cleanChars l) = cleanChars l :=
    List.filter_eq_self.mpr (fun c hc => cleanChars_word_or_space hc)
  have h3 : removeDigits (cleanChars l) = cleanChars l :=
    List.filter_eq_self.mpr (fun c hc => by
      simpa using cleanChars_no_digit hc)
  have h4 : collapseWs (cleanChars l) = cleanChars l :=
    collapseGo_false_eq_self _ (noWW_cleanChars l)
      (fun c hc => cleanChars_ws_space hc)
  have h5 : pyStrip (cleanChars l) = cleanChars l := by
    show pyStrip (pyStrip (collapseWs (removeDigits (removePunct
      (removeUrls (pyLower l)))))) = cleanChars l
    rw [pyStrip_idem]
    rfl
  show pyStrip (collapseWs (removeDigits (removePunct
    (removeUrls (pyLower (cleanChars l)))))) = cleanChars l
  rw [h1, h, h2, h3, h4, h5]

/-- C6: the normalizer removes every digit: no character of `clean_text t`
is a digit. -/
theorem clean_text_strips_digits (t : String) :
    (clean_text t).data.all (fun c => !c.isDigit) = true := by
  rw [List.all_eq_true]
  intro c hc
  have : c.isDigit = false := cleanChars_no_digit (l := t.data) hc
  simp [this]

/-- C3 counterexample: `clean_text` is not idempotent.  On "htt!px" the
punctuation pass manufactures "httpx", which the second pass's URL regex
deletes entirely. -/
theorem clean_text_not_idempotent :
    clean_text "htt!px" = "httpx" ∧ clean_text "httpx" = "" ∧
    clean_text (clean_text "htt!px") ≠ clean_text "htt!px" := by
  refine ⟨by decide, by decide, by decide⟩

/-- C3 amended: `clean_text` is idempotent on every string whose cleaned form
is left unchanged by the URL-removal pass (no occurrence of "http" followed
by a non-whitespace character survives cleaning). -/
theorem clean_text_idempotent_of_urlFree (t : String)
    (h : removeUrls (clean_text t).data = (clean_text t).data) :
    clean_text (clean_text t) = clean_text t := by
  have hcore : cleanChars (cleanChars t.data) = cleanChars t.data :=
    cleanChars_idem t.data h
  show (⟨cleanChars (cleanChars t.data)⟩ : String) = clean_text t
  rw [hcore]
  rfl

theorem clean_text_idempotent_witness :
    removeUrls (clean_text "Hello, World! 123").data
      = (clean_text "Hello, World! 123").data ∧
    clean_text (clean_text "Hello, World! 123") = clean_text "Hello, World! 123" :=
  ⟨by decide, clean_text_idempotent_of_urlFree "Hello, World! 123" (by decide)⟩

theorem wc_fallback {m : FittedModel} {t : String}
    (h : m.transform (clean_text t) = none) :
    predict_emotion_with_confidence m t = ("neutral", 50) := by
  unfold predict_emotion_with_confidence
  cases hp : m.hasProba <;> simp [hp, h]

theorem indexOf_lt_proba_len (m : FittedModel) (v : FVec) :
    m.classes.indexOf (m.clfPredict v) < (m.clfProba v).length := by
  rw [m.proba_len v]
  exact List.indexOf_lt_length.mpr (m.predict_mem v)

theorem probOfPredicted_mem (m : FittedModel) (v : FVec) :
    probOfPredicted m v ∈ m.clfProba v := by
  unfold probOfPredicted
  have h := indexOf_lt_proba_len m v
  rw [List.getD_eq_getElem?_getD, List.getElem?_eq_getElem h]
  exact List.getElem_mem _

theorem wc_success_proba {m : FittedModel} {t : String} {v : FVec}
    (hv : m.transform (clean_text t) = some v) (hp : m.hasProba = true) :
    predict_emotion_with_confidence m t
      = (m.clfPredict v, round1 (probOfPredicted m v * 100)) := by
  have hidx := indexOf_lt_proba_len m v
  have hne : m.clfProba v ≠ [] := by
    intro h0
    rw [h0] at hidx
    simp at hidx
  unfold predict_emotion_with_confidence
  simp only [hp, if_true, hv]
  rw [if_neg hne, if_pos (m.predict_mem v), List.getElem?_eq_getElem hidx]
  unfold probOfPredicted
  rw [List.getD_eq_getElem?_getD, List.getElem?_eq_getElem hidx]
  rfl

theorem wc_success_noproba {m : FittedModel} {t : String} {v : FVec}
    (hv : m.transform (clean_text t) = some v) (hp : m.hasProba = false) :
    predict_emotion_with_confidence m t = (m.clfPredict v, 75) := by
  unfold predict_emotion_with_confidence
  simp [hp, hv]

theorem round1_bounds {q : ℚ} (h0 : 0 ≤ q) (h1 : q ≤ 100) :
    0 ≤ round1 q ∧ round1 q ≤ 100 := by
  unfold round1
  have hlo : (0 : ℤ) ≤ round (q * 10) := by
    rw [round_eq]
    exact Int.le_floor.mpr (by push_cast; linarith)
  have hhi : round (q * 10) ≤ 1000 := by
    rw [round_eq]
    have : (q * 10 + 1 / 2 : ℚ) ≤ 1000 + 1 / 2 := by linarith
    calc ⌊(q * 10 + 1 / 2 : ℚ)⌋ ≤ ⌊(1000 + 1 / 2 : ℚ)⌋ := Int.floor_le_floor this
    _ = 1000 := by norm_num [Int.floor_eq_iff]
  constructor
  · positivity
  · rw [div_le_iff₀ (by norm_num)]
    calc ((round (q * 10) : ℤ) : ℚ) ≤ ((1000 : ℤ) : ℚ) := by exact_mod_cast hhi
    _ = 100 * 10 := by norm_num

/-- C2: on an internal error during a single prediction call (the shared
numeric stage raises), `predict_emotion` returns "neutral" and
`predict_emotion_with_confidence` returns ("neutral", 50.0); both embedded
facade operations are total functions, so neither propagates an exception. -/
theorem facade_fails_soft (m : FittedModel) (t : String)
    (h : m.transform (clean_text t) = none) :
    predict_emotion m t = "neutral" ∧
    predict_emotion_with_confidence m t = ("neutral", 50) := by
  constructor
  · unfold predict_emotion
    rw [h]
  · exact wc_fallback h

theorem facade_fails_soft_witness :
    failModel.transform (clean_text "I am happy") = none ∧
    (predict_emotion failModel "I am happy" = "neutral" ∧
     predict_emotion_with_confidence failModel "I am happy" = ("neutral", 50)) :=
  ⟨rfl, facade_fails_soft failModel "I am happy" rfl⟩

/-- C4: for every fitted model and input, the label returned by
`predict_emotion` equals the label component of
`predict_emotion_with_confidence`, on the success paths and on the
error-fallback paths alike. -/
theorem facade_labels_agree (m : FittedModel) (t : String) :
    predict_emotion m t = (predict_emotion_with_confidence m t).1 := by
  cases hv : m.transform (clean_text t) with
  | none =>
      rw [wc_fallback hv]
      unfold predict_emotion
      rw [hv]
  | some v =>
      cases hp : m.hasProba with
      | true =>
          rw [wc_success_proba hv hp]
          unfold predict_emotion
          rw [hv]
      | false =>
          rw [wc_success_noproba hv hp]
          unfold predict_emotion
          rw [hv]

/-- C5: on the success path the returned confidence is the probability the
classifier assigns to the predicted label, times 100, rounded to one
decimal; without a `predict_proba` capability the function returns the
predicted label with the fixed placeholder confidence 75.0. -/
theorem confidence_formula (m : FittedModel) (t : String) (v : FVec)
    (hv : m.transform (clean_text t) = some v) :
    (m.hasProba = true →
      predict_emotion_with_confidence m t
        = (m.clfPredict v, round1 (probOfPredicted m v * 100))) ∧
    (m.hasProba = false →
      predict_emotion_with_confidence m t = (m.clfPredict v, 75)) :=
  ⟨fun hp => wc_success_proba hv hp, fun hp => wc_success_noproba hv hp⟩

theorem confidence_formula_witness :
    demoModel.transform (clean_text "great") = some [1] ∧
    ((demoModel.hasProba = true →
      predict_emotion_with_confidence demoModel "great"
        = (demoModel.clfPredict [1], round1 (probOfPredicted demoModel [1] * 100))) ∧
     (demoModel.hasProba = false →
      predict_emotion_with_confidence demoModel "great"
        = (demoModel.clfPredict [1], 75))) :=
  ⟨rfl, confidence_formula demoModel "great" [1] rfl⟩

theorem pe_label_cases (m : FittedModel) (t : String) :
    predict_emotion m t = "neutral" ∨ predict_emotion m t ∈ m.classes := by
  unfold predict_emotion
  cases hv : m.transform (clean_text t) with
  | none => exact Or.inl rfl
  | some v => exact Or.inr (m.predict_mem v)

theorem wc_label_cases (m : FittedModel) (t : String) :
    (predict_emotion_with_confidence m t).1 = "neutral" ∨
    (predict_emotion_with_confidence m t).1 ∈ m.classes := by
  cases hv : m.transform (clean_text t) with
  | none => rw [wc_fallback hv]; exact Or.inl rfl
  | some v =>
      cases hp : m.hasProba with
      | true => rw [wc_success_proba hv hp]; exact Or.inr (m.predict_mem v)
      | false => rw [wc_success_noproba hv hp]; exact Or.inr (m.predict_mem v)

/-- C1: the pair returned by `predict_emotion_with_confidence` is well
formed: the confidence is within [0, 100] on every path (measured, 75.0
placeholder, 50.0 total-failure default), and — for a model whose fitted
classes come from the closed label set, as any model trained on a dataset
satisfying the label invariant does — the label is one of
happy/sad/angry/fear/neutral. -/
theorem confidence_wellformed (m : FittedModel) (t : String)
    (hcls : ∀ c ∈ m.classes, c ∈ emotionLabels) :
    (0 ≤ (predict_emotion_with_confidence m t).2 ∧
     (predict_emotion_with_confidence m t).2 ≤ 100) ∧
    (predict_emotion_with_confidence m t).1 ∈ emotionLabels := by
  constructor
  · cases hv : m.transform (clean_text t) with
    | none => rw [wc_fallback hv]; norm_num
    | some v =>
        cases hp : m.hasProba with
        | true =>
            rw [wc_success_proba hv hp]
            have hb := m.proba_bounds v _ (probOfPredicted_mem m v)
            exact round1_bounds (by linarith [hb.1]) (by linarith [hb.2])
        | false => rw [wc_success_noproba hv hp]; norm_num
  · rcases wc_label_cases m t with h | h
    · rw [h]; decide
    · exact hcls _ h

theorem confidence_wellformed_witness :
    (∀ c ∈ demoModel.classes, c ∈ emotionLabels) ∧
    ((0 ≤ (predict_emotion_with_confidence demoModel "hi").2 ∧
      (predict_emotion_with_confidence demoModel "hi").2 ≤ 100) ∧
     (predict_emotion_with_confidence demoModel "hi").1 ∈ emotionLabels) :=
  ⟨by decide, confidence_wellformed demoModel "hi" (by decide)⟩

/-- C10: the implementation resolves the fifth-class naming question as
"neutral": every label of the built-in default dataset is in the closed set
(the neutral-toned samples carry the label "neutral"), both error-fallback
labels are "neutral", and a model whose fitted classes come from the closed
set never returns the string "normal" from either facade operation. -/
theorem neutral_spelling_resolved (m : FittedModel) (t : String)
    (hcls : ∀ c ∈ m.classes, c ∈ emotionLabels) :
    (∀ e ∈ (getCol defaultData "emotion").getD [], e ∈ emotionLabels) ∧
    predict_emotion m t ≠ "normal" ∧
    (predict_emotion_with_confidence m t).1 ≠ "normal" ∧
    (m.transform (clean_text t) = none →
      predict_emotion m t = "neutral" ∧
      (predict_emotion_with_confidence m t).1 = "neutral") := by
  have hnorm : "normal" ∉ emotionLabels := by decide
  refine ⟨by decide, ?_, ?_, ?_⟩
  · rcases pe_label_cases m t with h | h
    · rw [h]; decide
    · intro hc; rw [hc] at h; exact hnorm (hcls _ h)
  · rcases wc_label_cases m t with h | h
    · rw [h]; decide
    · intro hc; rw [hc] at h; exact hnorm (hcls _ h)
  · intro hv
    refine ⟨?_, ?_⟩
    · unfold predict_emotion; rw [hv]
    · rw [wc_fallback hv]

theorem neutral_spelling_resolved_witness :
    (∀ c ∈ demoModel.classes, c ∈ emotionLabels) ∧
    ((∀ e ∈ (getCol defaultData "emotion").getD [], e ∈ emotionLabels) ∧
     predict_emotion demoModel "ok" ≠ "normal" ∧
     (predict_emotion_with_confidence demoModel "ok").1 ≠ "normal" ∧
     (demoModel.transform (clean_text "ok") = none →
       predict_emotion demoModel "ok" = "neutral" ∧
       (predict_emotion_with_confidence demoModel "ok").1 = "neutral")) :=
  ⟨by decide, neutral_spelling_resolved demoModel "ok" (by decide)⟩

set_option maxRecDepth 4000 in
/-- C9: on a first run with no persisted file, the provider returns the
built-in default dataset and writes it; a second run re-reads that file and
obtains an identical in-memory dataset (same (text, emotion) rows in the
same order). -/
theorem dataset_roundtrip :
    load_dataset_from_csv none = .ok (defaultData, writeCsv defaultData) ∧
    load_dataset_from_csv (some (writeCsv defaultData))
      = .ok (defaultData, writeCsv defaultData) :=
  ⟨rfl, by decide⟩

/-- C7 counterexample: a parsable dataset file missing the `emotion` column
does NOT make the provider fail — `load_dataset_from_csv` performs no column
validation and happily returns the parsed frame (no `DatasetError` type
exists anywhere in the source). -/
theorem provider_accepts_missing_emotion :
    ("emotion" ∉ (["text", "label"] : List String)) ∧
    load_dataset_from_csv (some "text,label\nhi,happy\n")
      = .ok (⟨["text", "label"], [["hi", "happy"]]⟩, "text,label\nhi,happy\n") :=
  ⟨by decide, by decide⟩

/-- C7 amended: the provider returns a file missing the `emotion` column
unvalidated; startup then fails later, when the training prologue accesses
`data['emotion']` (a pandas `KeyError`), not inside the provider and not as
a `DatasetError`. -/
theorem missing_emotion_fails_in_prologue (content : String) (df : DataFrame)
    (hparse : readCsv content = .ok df)
    (htext : "text" ∈ df.cols) (hemo : "emotion" ∉ df.cols) :
    load_dataset_from_csv (some content) = .ok (df, content) ∧
    startup (some content) = .error (.keyMissing "emotion") := by
  have hload : load_dataset_from_csv (some content) = .ok (df, content) := by
    show Except.map (fun df => (df, content)) (readCsv content) = .ok (df, content)
    rw [hparse]
    rfl
  have htcol : getCol df "text"
      = some (df.rows.map (fun r => r.getD (df.cols.indexOf "text") "")) := by
    unfold getCol
    rw [if_pos htext]
  have hecol : getCol df "emotion" = none := by
    unfold getCol
    rw [if_neg hemo]
  refine ⟨hload, ?_⟩
  unfold startup
  rw [hload]
  show startupFromFrame df = .error (.keyMissing "emotion")
  simp only [startupFromFrame, htcol, hecol]

theorem missing_emotion_fails_in_prologue_witness :
    readCsv "text\nhi\n" = .ok ⟨["text"], [["hi"]]⟩ ∧
    ("text" ∈ (⟨["text"], [["hi"]]⟩ : DataFrame).cols) ∧
    ("emotion" ∉ (⟨["text"], [["hi"]]⟩ : DataFrame).cols) ∧
    (load_dataset_from_csv (some "text\nhi\n")
       = .ok (⟨["text"], [["hi"]]⟩, "text\nhi\n") ∧
     startup (some "text\nhi\n") = .error (.keyMissing "emotion")) :=
  ⟨by decide, by decide, by decide,
   missing_emotion_fails_in_prologue "text\nhi\n" ⟨["text"], [["hi"]]⟩
     (by decide) (by decide) (by decide)⟩

theorem one_class_split_and_fit (ys : List String) (hne : ys ≠ [])
    (hone : ys.dedup.length = 1) :
    stratifiedSplitCheck ys
      = .error (.trainingError "least populated class has fewer than 2 members") ∨
    (stratifiedSplitCheck ys = .ok () ∧
     fitCheck ys
       = .error (.trainingError "this solver needs samples of at least 2 classes")) := by
  obtain ⟨c, hc⟩ := List.length_eq_one.mp hone
  have hall : ∀ x ∈ ys, x = c := by
    intro x hx
    have hxd : x ∈ ys.dedup := List.mem_dedup.mpr hx
    rw [hc] at hxd
    simpa using hxd
  have hcount : countOccs ys c = ys.length := by
    unfold countOccs
    rw [List.filter_eq_self.mpr (fun x hx => by simp [hall x hx])]
  have hnpos : 0 < ys.length := List.length_pos.mpr hne
  by_cases hn : ys.length < 2
  · left
    unfold stratifiedSplitCheck
    rw [if_pos ?hcond]
    case hcond =>
      rw [hc]
      simp only [List.map_cons, List.map_nil, List.any_cons, List.any_nil,
        Bool.or_false, hcount]
      simpa using hn
  · right
    have hany : ((ys.dedup.map (countOccs ys)).any (fun k => decide (k < 2))) = false := by
      rw [hc]
      simp only [List.map_cons, List.map_nil, List.any_cons, List.any_nil,
        Bool.or_false, hcount]
      simpa using hn
    have htrain : ¬(ys.length - nTestOf ys.length < ys.dedup.length) := by
      rw [hc, List.length_singleton]
      unfold nTestOf
      omega
    have htest : ¬(nTestOf ys.length < ys.dedup.length) := by
      rw [hc, List.length_singleton]
      unfold nTestOf
      omega
    constructor
    · unfold stratifiedSplitCheck
      rw [if_neg (by simpa using hany), if_neg htrain, if_neg htest]
    · unfold fitCheck
      rw [if_pos (by rw [hone]; omega)]

theorem small_class_split_check (ys : List String) (c : String) (hc : c ∈ ys)
    (hsmall : countOccs ys c < 2) :
    stratifiedSplitCheck ys
      = .error (.trainingError "least populated class has fewer than 2 members") := by
  unfold stratifiedSplitCheck
  rw [if_pos ?hcond]
  case hcond =>
    rw [List.any_eq_true]
    exact ⟨countOccs ys c,
      List.mem_map.mpr ⟨c, List.mem_dedup.mpr hc, rfl⟩, by simpa using hsmall⟩

/-- C8: a dataset with only one distinct class, or with a class too small
for the stratified train/test split (fewer than 2 members), makes startup
fail with a training-phase error (sklearn's `ValueError`, the spec's
`TrainingError`): the single-member-class case aborts inside
`train_test_split`'s stratification check, and the single-class case aborts
there or at `LogisticRegression.fit`'s two-classes check.  Either way the
process never reaches `model.fit`'s success path and no servable fitted
model is produced — there is no degraded-training fallback in the source. -/
theorem undertrained_startup_fails (df : DataFrame) (ys : List String)
    (htext : "text" ∈ df.cols)
    (hy : getCol df "emotion" = some ys)
    (htrig : ys.dedup.length = 1 ∨ ∃ c ∈ ys, countOccs ys c < 2) :
    isTrainingErr (startupFromFrame df) = true := by
  have htcol : getCol df "text"
      = some (df.rows.map (fun r => r.getD (df.cols.indexOf "text") "")) := by
    unfold getCol
    rw [if_pos htext]
  rcases htrig with hone | ⟨c, hc, hsmall⟩
  · have hne : ys ≠ [] := by
      intro h0
      rw [h0] at hone
      simp at hone
    rcases one_class_split_and_fit ys hne hone with hsplit | ⟨hsplit, hfit⟩
    · simp only [startupFromFrame, htcol, hy, hsplit]
      rfl
    · simp only [startupFromFrame, htcol, hy, hsplit, hfit]
      rfl
  · have hsplit := small_class_split_check ys c hc hsmall
    simp only [startupFromFrame, htcol, hy, hsplit]
    rfl

theorem undertrained_startup_fails_witness :
    (("text" ∈ oneClassFrame.cols) ∧
     getCol oneClassFrame "emotion" = some ["happy", "happy"] ∧
     (["happy", "happy"] : List String).dedup.length = 1 ∧
     isTrainingErr (startupFromFrame oneClassFrame) = true) ∧
    (("text" ∈ smallClassFrame.cols) ∧
     getCol smallClassFrame "emotion" = some ["happy", "sad", "sad"] ∧
     (["happy", "sad", "sad"] : List String).dedup.length = 2 ∧
     countOccs ["happy", "sad", "sad"] "happy" < 2 ∧
     isTrainingErr (startupFromFrame smallClassFrame) = true) :=
  ⟨⟨by decide, by decide, by decide,
    undertrained_startup_fails oneClassFrame ["happy", "happy"]
      (by decide) (by decide) (Or.inl (by decide))⟩,
   ⟨by decide, by decide, by decide, by decide,
    undertrained_startup_fails smallClassFrame ["happy", "sad", "sad"]
      (by decide) (by decide) (Or.inr ⟨"happy", by decide, by decide⟩)⟩⟩
